import Mathlib

/-!
Shallow embedding of two components of the operator-lifecycle-manager slice:

* `pkg/controller/operators/olm/requirements.go` — the requirement
  satisfaction resolver (`requirementStatus`, `permissionStatus`);
* `pkg/package-server/storage/packagemanifest/reststorage.go` — the
  package-manifest view store (`List`, `Watch`, `nameFor`, `matches`).

Go slices become `List`, Go maps become insertion-ordered association
lists (Go leaves map iteration order unspecified; the model fixes it to
first-insertion order), nil pointers become `Option`, and the external
collaborators (cluster client, rule checker, strategy unmarshaller,
manifest provider) become records of functions supplied as parameters.
-/

/- ### Status constants (`v1alpha1.RequirementStatusReason*` and friends) -/

def RequirementStatusReasonPresent : String := "Present"

def RequirementStatusReasonNotPresent : String := "NotPresent"

def RequirementStatusReasonPresentNotSatisfied : String := "PresentNotSatisfied"

def DependentStatusReasonSatisfied : String := "Satisfied"

def DependentStatusReasonNotSatisfied : String := "NotSatisfied"

/- ### Data model -/

/-- Model of `v1alpha1.DependentStatus`: outcome of one policy-rule check nested under
an identity requirement. -/
structure DependentStatus where
  group : String
  kind : String
  version : String
  status : String
  message : String
deriving Repr, DecidableEq

/-- Model of `v1alpha1.RequirementStatus`: satisfaction state of one declared
requirement. Status fields are the Go string values; the Go zero value of
the struct is `RequirementStatus.zero` below. -/
structure RequirementStatus where
  group : String
  version : String
  kind : String
  name : String
  status : String
  uuid : String
  dependents : List DependentStatus
deriving Repr, DecidableEq

/-- The Go zero value of `v1alpha1.RequirementStatus`, as produced by
`make([]v1alpha1.RequirementStatus, n)`. -/
def RequirementStatus.zero : RequirementStatus :=
  { group := "", version := "", kind := "", name := "", status := "", uuid := "",
    dependents := [] }

/-- An RBAC policy rule attached to an identity grant. The resolver never
inspects its fields: it only serializes it and hands it to the rule checker. -/
structure PolicyRule where
  verbs : List String
  apiGroups : List String
  resources : List String
deriving Repr, DecidableEq

/-- Model of `install.StrategyDeploymentPermissions`: one identity grant. -/
structure StrategyDeploymentPermissions where
  serviceAccountName : String
  rules : List PolicyRule
deriving Repr, DecidableEq

/-- Model of `install.StrategyDetailsDeployment`: the deployment-shaped install
strategy, carrying namespaced and cluster-wide grant lists. -/
structure StrategyDetailsDeployment where
  permissions : List StrategyDeploymentPermissions
  clusterPermissions : List StrategyDeploymentPermissions
deriving Repr, DecidableEq

/-- Result of `StrategyResolver.UnmarshalStrategy`: either the supported
deployment-shaped variant or some other strategy kind (the Go type switch
`strategy.(*install.StrategyDetailsDeployment)` fails on the latter). -/
inductive Strategy where
  | deployment (details : StrategyDetailsDeployment)
  | other (kindName : String)
deriving Repr, DecidableEq

/-- One entry of `csv.GetAllCRDDescriptions()`. -/
structure CRDDescription where
  name : String
deriving Repr, DecidableEq

/-- One entry of `csv.GetAllAPIServiceDescriptions()`. -/
structure APIServiceDescription where
  name : String
  version : String
  kind : String
deriving Repr, DecidableEq

/-- The slice of a `v1alpha1.ClusterServiceVersion` the resolver reads:
its name, namespace, declared CRD and APIService requirements, and the raw
install strategy (kept opaque; the unmarshaller interprets it). -/
structure ClusterServiceVersion where
  name : String
  ns : String
  crdDescriptions : List CRDDescription
  apiServiceDescriptions : List APIServiceDescription
  installStrategy : String
deriving Repr, DecidableEq

/-- A fetched CustomResourceDefinition object (only its UID is read). -/
structure CustomResourceDefinitionObj where
  uid : String
deriving Repr, DecidableEq

/-- A fetched APIService object (its UID is read; availability is decided
by the external predicate `isAPIServiceAvailable`). -/
structure APIServiceObj where
  uid : String
deriving Repr, DecidableEq

/-- A fetched ServiceAccount object, passed through to the rule checker. -/
structure ServiceAccountObj where
  uid : String
deriving Repr, DecidableEq

/-- External collaborators of the resolver (`a.OpClient`, discovery, the
strategy resolver and the CSV rule checker), as pure functions. `none`
models an error/nil return: the resolver only ever branches on `err != nil`.
`ruleSatisfied` returns `none` for an error and `some b` for `(b, nil)`;
the caller treats `err != nil || !satisfied` alike. All functions are fixed
for the duration of one evaluation pass (they model one consistent view of
the cluster). -/
structure OperatorEnv where
  getCRD : String → Option CustomResourceDefinitionObj
  isGVKRegistered : String → String → String → Bool
  getAPIService : String → Option APIServiceObj
  isAPIServiceAvailable : APIServiceObj → Bool
  unmarshalStrategy : String → Option Strategy
  getServiceAccount : String → String → Option ServiceAccountObj
  ruleSatisfied : ServiceAccountObj → String → PolicyRule → Option Bool

/-- The constant `metav1.NamespaceAll`, which is the empty string. -/
def NamespaceAll : String := ""

/- ### Rule serialization

`json.Marshal` applied to an RBAC `PolicyRule` (a struct of string slices)
cannot fail, so the error branch of `json.Marshal(rule)` in the source is
dead code and the model serializes totally. -/

def quoteJSONList (xs : List String) : String :=
  "[" ++ String.intercalate "," (xs.map (fun s => "\"" ++ s ++ "\"")) ++ "]"

/-- Stand-in for `json.Marshal(rule)`: a total, deterministic serialization
of the rule. -/
def marshalRule (r : PolicyRule) : String :=
  "\x7b\"verbs\":" ++ quoteJSONList r.verbs ++
    ",\"apiGroups\":" ++ quoteJSONList r.apiGroups ++
    ",\"resources\":" ++ quoteJSONList r.resources ++ "\x7d"

/- ### The statuses map (`statusesSet`)

Go's `map[string]v1alpha1.RequirementStatus` with unspecified iteration
order, modelled as an association list iterated (and extended) in
first-insertion order. -/

abbrev StatusesSet := List (String × RequirementStatus)

def setLookup (s : StatusesSet) (k : String) : Option RequirementStatus :=
  match s with
  | [] => none
  | (k', v) :: rest => if k' = k then some v else setLookup rest k

def setInsert (s : StatusesSet) (k : String) (v : RequirementStatus) : StatusesSet :=
  match s with
  | [] => [(k, v)]
  | (k', v') :: rest =>
    if k' = k then (k', v) :: rest else (k', v') :: setInsert rest k v

/- ### permissionStatus -/

/-- The fresh `v1alpha1.RequirementStatus` built for a service account the
first time its name is encountered (requirements.go lines 131-139). -/
def newSAStatus (saName : String) : RequirementStatus :=
  { group := "", version := "v1", kind := "ServiceAccount", name := saName,
    status := RequirementStatusReasonPresent, uuid := "", dependents := [] }

/-- The dependent-status template built for every rule
(requirements.go lines 156-160). -/
def baseDependent : DependentStatus :=
  { group := "rbac.authorization.k8s.io", kind := "PolicyRule",
    version := "v1beta1", status := "", message := "" }

/-- Body of the inner `for _, rule := range perm.Rules` loop: threads the
`met` flag and the service account's `RequirementStatus` through one rule
check (requirements.go lines 154-181). -/
def checkRule (env : OperatorEnv) (sa : ServiceAccountObj) (nsArg : String)
    (acc : Bool × RequirementStatus) (rule : PolicyRule) : Bool × RequirementStatus :=
  let dep := { baseDependent with message := "rule raw:" ++ marshalRule rule }
  if env.ruleSatisfied sa nsArg rule = some true then
    (acc.1, { acc.2 with
      dependents := acc.2.dependents ++ [{ dep with status := DependentStatusReasonSatisfied }] })
  else
    (false, { acc.2 with
      status := RequirementStatusReasonPresentNotSatisfied,
      dependents := acc.2.dependents ++ [{ dep with status := DependentStatusReasonNotSatisfied }] })

/-- Body of the outer `for _, perm := range permissions` loop of the
`checkPermissions` closure (requirements.go lines 126-185): look up or
create the status for the grant's service-account name, fetch the service
account (from the CSV's own namespace), and either mark NotPresent or
evaluate every rule. -/
def checkPerm (env : OperatorEnv) (csvNs nsArg : String)
    (acc : Bool × StatusesSet) (perm : StrategyDeploymentPermissions) : Bool × StatusesSet :=
  let saName := perm.serviceAccountName
  let status :=
    match setLookup acc.2 saName with
    | none => newSAStatus saName
    | some stored => stored
  match env.getServiceAccount csvNs saName with
  | none =>
    (false, setInsert acc.2 saName { status with status := RequirementStatusReasonNotPresent })
  | some sa =>
    let r := perm.rules.foldl (checkRule env sa nsArg) (acc.1, status)
    (r.1, setInsert acc.2 saName r.2)

/-- The `checkPermissions` closure applied to a whole grant list. -/
def checkPermissions (env : OperatorEnv) (csvNs nsArg : String)
    (acc : Bool × StatusesSet) (perms : List StrategyDeploymentPermissions) :
    Bool × StatusesSet :=
  perms.foldl (checkPerm env csvNs nsArg) acc

/-- Model of `permissionStatus` (requirements.go lines 108-196): unmarshal the
install strategy, fail closed on decode failure or a non-deployment
variant, check namespaced grants against the CSV's namespace then
cluster-wide grants against `NamespaceAll`, and collect the map into a
slice. The collection step mirrors the source exactly:
`statuses := make([]v1alpha1.RequirementStatus, len(statusesSet))` followed
by `append` inside `for _, status := range statusesSet`, which leaves
`len(statusesSet)` zero-valued entries in front of the map's values. -/
def permissionStatus (env : OperatorEnv) (csv : ClusterServiceVersion) :
    Bool × List RequirementStatus :=
  match env.unmarshalStrategy csv.installStrategy with
  | none => (false, [])
  | some (Strategy.other _) => (false, [])
  | some (Strategy.deployment sdd) =>
    let acc1 := checkPermissions env csv.ns csv.ns (true, []) sdd.permissions
    let acc2 := checkPermissions env csv.ns NamespaceAll acc1 sdd.clusterPermissions
    (acc2.1, List.replicate acc2.2.length RequirementStatus.zero ++ acc2.2.map Prod.snd)

/- ### requirementStatus -/

/-- One iteration of the CRD loop (requirements.go lines 17-35). -/
def crdRequirement (env : OperatorEnv) (r : CRDDescription) : Bool × RequirementStatus :=
  let status : RequirementStatus :=
    { group := "apiextensions.k8s.io", version := "v1beta1",
      kind := "CustomResourceDefinition", name := r.name, status := "", uuid := "",
      dependents := [] }
  match env.getCRD r.name with
  | none => (false, { status with status := RequirementStatusReasonNotPresent })
  | some crd =>
    (true, { status with status := RequirementStatusReasonPresent, uuid := crd.uid })

/-- One iteration of the APIService loop (requirements.go lines 36-71): the
discovery check is called as `isGVKRegistered(r.Name, r.Version, r.Kind)`,
i.e. the description's name is the group. -/
def apiServiceRequirement (env : OperatorEnv) (r : APIServiceDescription) :
    Bool × RequirementStatus :=
  let status : RequirementStatus :=
    { group := "apiregistration.k8s.io", version := "v1", kind := "APIService",
      name := r.version ++ "." ++ r.name, status := "", uuid := "", dependents := [] }
  if !env.isGVKRegistered r.name r.version r.kind then
    (false, { status with status := "NotPresent" })
  else
    match env.getAPIService (r.version ++ "." ++ r.name) with
    | none => (false, { status with status := "NotPresent" })
    | some apiService =>
      if !env.isAPIServiceAvailable apiService then
        (false, { status with status := "NotPresent" })
      else
        (true, { status with status := "Present", uuid := apiService.uid })

/-- One iteration of either requirement loop in `requirementStatus`:
lower `met` when the requirement check failed and append its status. -/
def collectStep (f : α → Bool × RequirementStatus)
    (acc : Bool × List RequirementStatus) (r : α) : Bool × List RequirementStatus :=
  (acc.1 && (f r).1, acc.2 ++ [(f r).2])

/-- Model of `requirementStatus` (requirements.go lines 15-80): CRD requirements,
then APIService requirements, then the permission statuses appended last;
`met` is the conjunction of all three phases. -/
def requirementStatus (env : OperatorEnv) (csv : ClusterServiceVersion) :
    Bool × List RequirementStatus :=
  let crd := csv.crdDescriptions.foldl (collectStep (crdRequirement env))
    (true, ([] : List RequirementStatus))
  let api := csv.apiServiceDescriptions.foldl (collectStep (apiServiceRequirement env)) crd
  let perm := permissionStatus env csv
  (api.1 && perm.1, api.2 ++ perm.2)

/- ### Package-manifest view store (reststorage.go) -/

/-- The slice of a `v1alpha1.PackageManifest` the storage layer reads:
name, namespace and labels. -/
structure PackageManifest where
  name : String
  ns : String
  labels : List (String × String)
deriving Repr, DecidableEq

/-- A `labels.Selector`, abstracted to its `Matches` predicate (the only
operation the storage layer applies to it). -/
abbrev LabelSelector := List (String × String) → Bool

/-- Model of `labels.Everything()`. -/
def labelsEverything : LabelSelector := fun _ => true

/-- One term of a parsed `fields.Selector`: `field=value` (`hasTerm`) or
`field!=value` (`notHasTerm`). -/
inductive FieldTerm where
  | hasTerm (field : String) (value : String)
  | notHasTerm (field : String) (value : String)
deriving Repr, DecidableEq

instance : Inhabited FieldTerm := ⟨FieldTerm.hasTerm "" ""⟩

def FieldTerm.field : FieldTerm → String
  | .hasTerm f _ => f
  | .notHasTerm f _ => f

/-- A `fields.Selector` pointer: `none` is the nil interface, `some ts` an
`andTerm` of parsed terms. -/
abbrev FieldSelector := Option (List FieldTerm)

/-- Model of `Selector.RequiresExactMatch(field)` on an `andTerm`: the first
`hasTerm` on that field wins; `notHasTerm` never reports an exact match. -/
def requiresExactMatch (ts : List FieldTerm) (field : String) : Option String :=
  match ts with
  | [] => none
  | FieldTerm.hasTerm f v :: rest =>
    if f = field then some v else requiresExactMatch rest field
  | FieldTerm.notHasTerm _ _ :: rest => requiresExactMatch rest field

/-- Model of `Selector.Empty()`: an `andTerm` is empty iff it has no terms
(`hasTerm`/`notHasTerm` are never empty). -/
def fieldSelectorEmpty (ts : List FieldTerm) : Bool := ts.isEmpty

/-- Model of `nameFor` (reststorage.go lines 130-141): nil selectors count as
`fields.Everything()`; an exact match on `metadata.name` yields that name;
an empty selector yields the empty name; anything else fails naming the
first requirement's field. -/
def nameFor (fs : FieldSelector) : Except String String :=
  match requiresExactMatch (fs.getD []) "metadata.name" with
  | some v => Except.ok v
  | none =>
    if fieldSelectorEmpty (fs.getD []) then Except.ok ""
    else Except.error ("field label not supported: " ++ ((fs.getD []).headD default).field)

/-- Model of `matches` (reststorage.go lines 143-151); renamed because `matches` is a Lean keyword. -/
def manifestMatches (m : PackageManifest) (name ns : String) (ls : LabelSelector) : Bool :=
  let name := if name = "" then m.name else name
  let ns := if ns = NamespaceAll then m.ns else ns
  ls m.labels && m.name == name && m.ns == ns

/-- The fields of `metainternalversion.ListOptions` the storage layer
reads. Nil sub-pointers are `Option`/`none`. -/
structure ListOptions where
  labelSelector : Option LabelSelector
  fieldSelector : FieldSelector
  resourceVersion : String

/-- The label selector actually used: `labels.Everything()` unless the
options carry one (reststorage.go lines 62-65 and 114-117). -/
def optLabelSelector (o : ListOptions) : LabelSelector :=
  match o.labelSelector with
  | some l => l
  | none => labelsEverything

/-- The provider (`provider.PackageManifestProvider`), reduced to its
`List` call; an `Except.error` is a non-nil error return. -/
structure StorageProvider where
  list : String → Except String (List PackageManifest)

/-- Outcome of a Go call in this model: a nil-pointer panic, an error
return (together with the object returned beside the error, which may be
nil), or a successful return. -/
inductive GoResult (α : Type) where
  | panics
  | fails (obj : Option α) (msg : String)
  | ok (val : α)
deriving Repr, DecidableEq

/-- Model of `List` (reststorage.go lines 59-86). The requested namespace comes from
the request context (`genericapirequest.NamespaceValue(ctx)`), passed here
as `reqNs`. The label selector read guards `options` against nil; the
subsequent `options.FieldSelector` read does not, so a nil `options`
pointer panics. A `nameFor` failure returns `(nil, err)`; a provider
failure returns an empty list together with the error. -/
def goList (prov : StorageProvider) (reqNs : String) (options : Option ListOptions) :
    GoResult (List PackageManifest) :=
  match options with
  | none => GoResult.panics
  | some o =>
    match nameFor o.fieldSelector with
    | Except.error e => GoResult.fails none e
    | Except.ok name =>
      match prov.list reqNs with
      | Except.error e => GoResult.fails (some []) e
      | Except.ok items =>
        GoResult.ok (items.filter (fun m => manifestMatches m name reqNs (optLabelSelector o)))

/- ### Change watcher -/

/-- One change arriving on the provider's live feed. -/
inductive FeedChange where
  | added (m : PackageManifest)
  | modified (m : PackageManifest)
  | deleted (m : PackageManifest)
deriving Repr, DecidableEq

/-- One event emitted to the Watch subscriber. -/
inductive WatchEvent where
  | added (m : PackageManifest)
  | modified (m : PackageManifest)
  | deleted (m : PackageManifest)
deriving Repr, DecidableEq

/-- The filter parameters captured by `NewWatcher(namespace, name,
resourceVersion, labelSelector, prov)` at subscription time. -/
structure Watcher where
  ns : String
  name : String
  resourceVersion : String
  labelSelector : LabelSelector

/-- Modelled from the spec: the Streaming phase of the watcher's Run loop
(`NewWatcher`/`Run` are not among the provided sources; only their call
site in `Watch` is). Spec 4.4: every incoming change has the same
name/namespace/label filter re-applied before an event is emitted;
non-matching changes are dropped silently. -/
def filterChange (w : Watcher) : FeedChange → Option WatchEvent
  | FeedChange.added m =>
    if manifestMatches m w.name w.ns w.labelSelector then some (WatchEvent.added m) else none
  | FeedChange.modified m =>
    if manifestMatches m w.name w.ns w.labelSelector then some (WatchEvent.modified m) else none
  | FeedChange.deleted m =>
    if manifestMatches m w.name w.ns w.labelSelector then some (WatchEvent.deleted m) else none

/-- Modelled from the spec: the Initializing phase of the watcher's Run
loop. Spec 4.4: fetch the current List snapshot via the Store and emit one
synthetic Added event per matching record. `snapshot` is the collection the
Store's List returned at subscription time. -/
def watcherReplay (w : Watcher) (snapshot : List PackageManifest) : List WatchEvent :=
  (snapshot.filter (fun m => manifestMatches m w.name w.ns w.labelSelector)).map WatchEvent.added

/-- Modelled from the spec: the full event trace of one watcher run —
Initializing emits the snapshot replay, then Streaming filters the live
feed until it terminates. -/
def watcherRun (w : Watcher) (snapshot : List PackageManifest)
    (feed : List FeedChange) : List WatchEvent :=
  watcherReplay w snapshot ++ feed.filterMap (filterChange w)

/-- Model of `Watch` (reststorage.go lines 107-123), composed with the modelled
watcher run: `options.FieldSelector` and `options.ResourceVersion` are read
without a nil guard (panic on nil options), while the label selector read
is guarded; a `nameFor` failure returns `(nil, err)`; otherwise the watcher
is created with the captured filter parameters and its event trace over the
given snapshot and feed is the subscriber's view. -/
def goWatch (prov : StorageProvider) (reqNs : String) (options : Option ListOptions)
    (snapshot : List PackageManifest) (feed : List FeedChange) :
    GoResult (List WatchEvent) :=
  match options with
  | none => GoResult.panics
  | some o =>
    match nameFor o.fieldSelector with
    | Except.error e => GoResult.fails none e
    | Except.ok name =>
      let w : Watcher :=
        { ns := reqNs, name := name, resourceVersion := o.resourceVersion,
          labelSelector := optLabelSelector o }
      GoResult.ok (watcherRun w snapshot feed)

/- ### Predicates used by the verification -/

/-- A requirement status that counts toward `met`: Present with every
nested dependent Satisfied. -/
def GoodStatus (st : RequirementStatus) : Prop :=
  st.status = RequirementStatusReasonPresent ∧
    ∀ d ∈ st.dependents, d.status = DependentStatusReasonSatisfied

/-- Invariant of the `statusesSet` map during one evaluation pass: every
entry is a ServiceAccount status whose status string is one of the three
legal values, and an entry is NotPresent only when the (deterministic)
service-account lookup fails for its key. -/
def GoodSet (env : OperatorEnv) (csvNs : String) (s : StatusesSet) : Prop :=
  ∀ k st, setLookup s k = some st →
    st.kind = "ServiceAccount" ∧
    (st.status = RequirementStatusReasonPresent ∨
      st.status = RequirementStatusReasonPresentNotSatisfied ∨
      st.status = RequirementStatusReasonNotPresent) ∧
    (st.status = RequirementStatusReasonNotPresent →
      env.getServiceAccount csvNs k = none)

/-- Rank of a requirement-status string: Present is highest, then
PresentNotSatisfied, then NotPresent; a grant's status is only ever
downgraded in this order. -/
def statusRank (s : String) : Nat :=
  if s = RequirementStatusReasonPresent then 2
  else if s = RequirementStatusReasonPresentNotSatisfied then 1
  else 0

/-- The status currently recorded for an identity name; an absent entry
counts as the default Present a fresh entry starts from. -/
def statusOf (s : StatusesSet) (k : String) : String :=
  match setLookup s k with
  | some st => st.status
  | none => RequirementStatusReasonPresent

/-- Invariant relating the running `met` flag to the map contents:
`met = true` keeps every entry good, and `met = false` is always justified
by some entry that is not Present or has an unsatisfied dependent. -/
def PermInv (env : OperatorEnv) (csvNs : String) (p : Bool × StatusesSet) : Prop :=
  GoodSet env csvNs p.2 ∧
  (p.1 = true → ∀ pr ∈ p.2, GoodStatus pr.2) ∧
  (p.1 = false → ∃ k st, setLookup p.2 k = some st ∧
    (st.status ≠ RequirementStatusReasonPresent ∨
      ∃ d ∈ st.dependents, d.status ≠ DependentStatusReasonSatisfied))

/- ### Concrete fixtures used by counterexamples and witnesses -/

/-- Environment whose install-strategy unmarshal fails; everything else
succeeds. -/
def envA : OperatorEnv :=
  { getCRD := fun _ => some ⟨"crd-uid"⟩, isGVKRegistered := fun _ _ _ => true,
    getAPIService := fun _ => some ⟨"api-uid"⟩, isAPIServiceAvailable := fun _ => true,
    unmarshalStrategy := fun _ => none,
    getServiceAccount := fun _ _ => some ⟨"sa-uid"⟩,
    ruleSatisfied := fun _ _ _ => some true }

/-- A workload with no declared requirements and an undecodable install
strategy. -/
def csvA : ClusterServiceVersion :=
  { name := "csv-a", ns := "ns-a", crdDescriptions := [], apiServiceDescriptions := [],
    installStrategy := "garbage" }

def rule1 : PolicyRule := ⟨["get"], [""], ["pods"]⟩

def rule2 : PolicyRule := ⟨["list"], [""], ["secrets"]⟩

/-- A deployment strategy naming the same service account in the
namespaced and the cluster-wide grant lists. -/
def sdd2 : StrategyDetailsDeployment :=
  { permissions := [⟨"sa1", [rule1]⟩], clusterPermissions := [⟨"sa1", [rule2]⟩] }

/-- Environment where `sdd2` decodes, the service account exists and every
rule is satisfied. -/
def env2 : OperatorEnv :=
  { getCRD := fun _ => none, isGVKRegistered := fun _ _ _ => true,
    getAPIService := fun _ => none, isAPIServiceAvailable := fun _ => true,
    unmarshalStrategy := fun _ => some (Strategy.deployment sdd2),
    getServiceAccount := fun _ _ => some ⟨"sa-uid"⟩,
    ruleSatisfied := fun _ _ _ => some true }

def csv2 : ClusterServiceVersion :=
  { name := "csv-b", ns := "ns-b", crdDescriptions := [], apiServiceDescriptions := [],
    installStrategy := "deployment" }

/-- The dependent status a satisfied rule produces. -/
def satDependent (r : PolicyRule) : DependentStatus :=
  { group := "rbac.authorization.k8s.io", kind := "PolicyRule", version := "v1beta1",
    status := DependentStatusReasonSatisfied,
    message := "rule raw:" ++ marshalRule r }

/-- The dependent status an unsatisfied (or erroring) rule produces. -/
def notSatDependent (r : PolicyRule) : DependentStatus :=
  { group := "rbac.authorization.k8s.io", kind := "PolicyRule", version := "v1beta1",
    status := DependentStatusReasonNotSatisfied,
    message := "rule raw:" ++ marshalRule r }

/-- The single merged ServiceAccount status the evaluation of `sdd2`
produces: dependents from both grant lists, in encounter order. -/
def mergedSa1Status : RequirementStatus :=
  { group := "", version := "v1", kind := "ServiceAccount", name := "sa1",
    status := RequirementStatusReasonPresent, uuid := "",
    dependents := [satDependent rule1, satDependent rule2] }

/-- Environment for the zero-requirements workload: the strategy decodes
to a deployment with empty grant lists. -/
def env3 : OperatorEnv :=
  { envA with unmarshalStrategy := fun _ => some (Strategy.deployment ⟨[], []⟩) }

def csv3 : ClusterServiceVersion :=
  { name := "csv-c", ns := "ns-c", crdDescriptions := [], apiServiceDescriptions := [],
    installStrategy := "empty-deployment" }

/-- Environment for the ordering exhibit: one CRD present, one grant whose
service account exists with no rules. -/
def env4 : OperatorEnv :=
  { getCRD := fun _ => some ⟨"crd-uid"⟩, isGVKRegistered := fun _ _ _ => true,
    getAPIService := fun _ => none, isAPIServiceAvailable := fun _ => true,
    unmarshalStrategy := fun _ => some (Strategy.deployment ⟨[⟨"sa1", []⟩], []⟩),
    getServiceAccount := fun _ _ => some ⟨"sa-uid"⟩,
    ruleSatisfied := fun _ _ _ => some true }

def csv4 : ClusterServiceVersion :=
  { name := "csv-d", ns := "ns-d", crdDescriptions := [⟨"examples.example.com"⟩],
    apiServiceDescriptions := [], installStrategy := "deployment" }

/-- The CRD status `csv4` produces. -/
def crdStatus4 : RequirementStatus :=
  { group := "apiextensions.k8s.io", version := "v1beta1",
    kind := "CustomResourceDefinition", name := "examples.example.com",
    status := RequirementStatusReasonPresent, uuid := "crd-uid", dependents := [] }

/-- The ServiceAccount status `csv4` produces. -/
def sa1Status4 : RequirementStatus := newSAStatus "sa1"

def pm1 : PackageManifest := ⟨"pkg-a", "ns-1", [("tier", "stable")]⟩

def pm2 : PackageManifest := ⟨"pkg-b", "ns-2", [("tier", "beta")]⟩

/-- A provider holding `pm1` and `pm2` regardless of the namespace asked
for (the namespace filtering under test happens in `List` itself). -/
def prov7 : StorageProvider := ⟨fun _ => Except.ok [pm1, pm2]⟩

/-- Options with no label selector and no field selector. -/
def opts7 : ListOptions := ⟨none, none, ""⟩

/-- A compound field selector: an exact match on `metadata.name` AND a
filter on another field. -/
def opts8 : ListOptions :=
  ⟨none, some [FieldTerm.hasTerm "metadata.name" "pkg-a",
               FieldTerm.hasTerm "status.catalogSource" "x"], ""⟩

/-- A field selector on a single unsupported field. -/
def opts8b : ListOptions := ⟨none, some [FieldTerm.hasTerm "status.catalogSource" "x"], ""⟩

/-- A provider that always fails, for exercising the error path. -/
def provFail : StorageProvider := ⟨fun _ => Except.error "boom"⟩

/- ### Basic lemmas about the embedding -/

theorem foldl_collectStep (f : α → Bool × RequirementStatus) (l : List α)
    (b : Bool) (s : List RequirementStatus) :
    l.foldl (collectStep f) (b, s) =
      (b && l.all (fun r => (f r).1), s ++ l.map (fun r => (f r).2)) := by
  induction l generalizing b s with
  | nil => simp
  | cons x xs ih => simp [collectStep, ih, Bool.and_assoc]

/-- Closed form of `requirementStatus`: `met` is the conjunction of the
three phases and the statuses are the three phases' statuses in order. -/
theorem requirementStatus_eq (env : OperatorEnv) (csv : ClusterServiceVersion) :
    requirementStatus env csv =
      ((csv.crdDescriptions.all (fun r => (crdRequirement env r).1) &&
          csv.apiServiceDescriptions.all (fun r => (apiServiceRequirement env r).1)) &&
        (permissionStatus env csv).1,
       csv.crdDescriptions.map (fun r => (crdRequirement env r).2) ++
         csv.apiServiceDescriptions.map (fun r => (apiServiceRequirement env r).2) ++
         (permissionStatus env csv).2) := by
  unfold requirementStatus
  simp only [foldl_collectStep]
  simp [Bool.and_assoc]

theorem setLookup_setInsert (s : StatusesSet) (k k' : String) (v : RequirementStatus) :
    setLookup (setInsert s k v) k' = if k = k' then some v else setLookup s k' := by
  induction s with
  | nil => by_cases h : k = k' <;> simp [setInsert, setLookup, h]
  | cons hd tl ih =>
    obtain ⟨a, w⟩ := hd
    by_cases hak : a = k
    · subst hak
      by_cases hak' : a = k' <;> simp [setInsert, setLookup, hak', ih]
    · by_cases hak' : a = k'
      · subst hak'
        have hk : ¬k = a := fun h => hak h.symm
        simp [setInsert, setLookup, hak, hk]
      · simp [setInsert, setLookup, hak, hak', ih]

theorem mem_setInsert (s : StatusesSet) (k : String) (v : RequirementStatus) :
    ∀ pr ∈ setInsert s k v, pr = (k, v) ∨ pr ∈ s := by
  induction s with
  | nil =>
    intro pr hpr
    simp [setInsert] at hpr
    exact Or.inl hpr
  | cons hd tl ih =>
    obtain ⟨a, w⟩ := hd
    intro pr hpr
    simp only [setInsert] at hpr
    by_cases hak : a = k
    · rw [if_pos hak] at hpr
      rcases List.mem_cons.mp hpr with h | h
      · exact Or.inl (by rw [h, hak])
      · exact Or.inr (List.mem_cons_of_mem _ h)
    · rw [if_neg hak] at hpr
      rcases List.mem_cons.mp hpr with h | h
      · exact Or.inr (by rw [h]; exact List.mem_cons_self _ _)
      · rcases ih pr h with h' | h'
        · exact Or.inl h'
        · exact Or.inr (List.mem_cons_of_mem _ h')

theorem setLookup_mem (s : StatusesSet) (k : String) (st : RequirementStatus)
    (h : setLookup s k = some st) : (k, st) ∈ s := by
  induction s with
  | nil => simp [setLookup] at h
  | cons hd tl ih =>
    obtain ⟨a, w⟩ := hd
    by_cases hak : a = k
    · subst hak
      simp [setLookup] at h
      simp [h]
    · simp only [setLookup, if_neg hak] at h
      exact List.mem_cons_of_mem _ (ih h)

/-- Behaviour of the rule loop: the service-account status keeps its kind,
its status is unchanged or lowered to PresentNotSatisfied, dependents only
get appended; `met` true at the end means it was true at the start, the
status is unchanged and every new dependent is Satisfied; `met` false at
the end means it was false at the start or the status ended
PresentNotSatisfied. -/
theorem checkRule_foldl_spec (env : OperatorEnv) (sa : ServiceAccountObj) (nsArg : String)
    (rules : List PolicyRule) (b : Bool) (st : RequirementStatus) :
    (rules.foldl (checkRule env sa nsArg) (b, st)).2.kind = st.kind ∧
    ((rules.foldl (checkRule env sa nsArg) (b, st)).2.status = st.status ∨
      (rules.foldl (checkRule env sa nsArg) (b, st)).2.status =
        RequirementStatusReasonPresentNotSatisfied) ∧
    (∃ tail, (rules.foldl (checkRule env sa nsArg) (b, st)).2.dependents =
      st.dependents ++ tail) ∧
    ((rules.foldl (checkRule env sa nsArg) (b, st)).1 = true →
      b = true ∧
      (rules.foldl (checkRule env sa nsArg) (b, st)).2.status = st.status ∧
      ∀ d ∈ (rules.foldl (checkRule env sa nsArg) (b, st)).2.dependents,
        d ∈ st.dependents ∨ d.status = DependentStatusReasonSatisfied) ∧
    ((rules.foldl (checkRule env sa nsArg) (b, st)).1 = false →
      b = false ∨ (rules.foldl (checkRule env sa nsArg) (b, st)).2.status =
        RequirementStatusReasonPresentNotSatisfied) := by
  induction rules generalizing b st with
  | nil =>
    exact ⟨rfl, Or.inl rfl, ⟨[], by simp⟩,
      fun h => ⟨h, rfl, fun d hd => Or.inl hd⟩, fun h => Or.inl h⟩
  | cons rule rules ih =>
    by_cases hr : env.ruleSatisfied sa nsArg rule = some true
    · have hstep : checkRule env sa nsArg (b, st) rule =
          (b, { st with dependents := st.dependents ++ [satDependent rule] }) := by
        simp [checkRule, hr, satDependent, baseDependent]
      rw [List.foldl_cons, hstep]
      obtain ⟨hkind, hstat, ⟨tail, hdeps⟩, htrue, hfalse⟩ :=
        ih b { st with dependents := st.dependents ++ [satDependent rule] }
      refine ⟨hkind, hstat, ⟨satDependent rule :: tail, by rw [hdeps]; simp⟩, ?_, hfalse⟩
      intro h
      obtain ⟨hb, hs, hd⟩ := htrue h
      refine ⟨hb, hs, fun d hd' => ?_⟩
      rcases hd d hd' with hmem | hsat
      · rcases List.mem_append.mp hmem with hmem' | hmem'
        · exact Or.inl hmem'
        · right
          rw [List.mem_singleton.mp hmem']
          rfl
      · exact Or.inr hsat
    · have hstep : checkRule env sa nsArg (b, st) rule =
          (false,
            { st with
              status := RequirementStatusReasonPresentNotSatisfied,
              dependents := st.dependents ++ [notSatDependent rule] }) := by
        simp [checkRule, hr, notSatDependent, baseDependent]
      rw [List.foldl_cons, hstep]
      obtain ⟨hkind, hstat, ⟨tail, hdeps⟩, htrue, hfalse⟩ :=
        ih false
          { st with
            status := RequirementStatusReasonPresentNotSatisfied,
            dependents := st.dependents ++ [notSatDependent rule] }
      refine ⟨hkind, ?_, ⟨notSatDependent rule :: tail, by rw [hdeps]; simp⟩, ?_, ?_⟩
      · rcases hstat with h | h
        · exact Or.inr h
        · exact Or.inr h
      · intro h
        exact absurd (htrue h).1 (by simp)
      · intro _
        rcases hstat with h | h
        · exact Or.inr h
        · exact Or.inr h

theorem statusRank_le_two (s : String) : statusRank s ≤ 2 := by
  unfold statusRank
  split
  · omega
  · split <;> omega

theorem statusRank_present : statusRank RequirementStatusReasonPresent = 2 := by decide

theorem statusRank_presentNotSatisfied :
    statusRank RequirementStatusReasonPresentNotSatisfied = 1 := by decide

theorem statusRank_notPresent : statusRank RequirementStatusReasonNotPresent = 0 := by decide

theorem statusOf_some (s : StatusesSet) (k : String) (st : RequirementStatus)
    (h : setLookup s k = some st) : statusOf s k = st.status := by
  unfold statusOf
  rw [h]

theorem statusOf_none (s : StatusesSet) (k : String) (h : setLookup s k = none) :
    statusOf s k = RequirementStatusReasonPresent := by
  unfold statusOf
  rw [h]

/-- Shape of one grant step: the looked-up (or fresh) status is either
downgraded to NotPresent when the service-account fetch fails, or threaded
through the rule loop, and in both cases written back under the grant's
service-account name. -/
theorem checkPerm_shape (env : OperatorEnv) (csvNs nsArg : String)
    (acc : Bool × StatusesSet) (perm : StrategyDeploymentPermissions) :
    ∃ st₀,
      (setLookup acc.2 perm.serviceAccountName = some st₀ ∨
        (setLookup acc.2 perm.serviceAccountName = none ∧
          st₀ = newSAStatus perm.serviceAccountName)) ∧
      ((env.getServiceAccount csvNs perm.serviceAccountName = none ∧
          checkPerm env csvNs nsArg acc perm =
            (false, setInsert acc.2 perm.serviceAccountName
              { st₀ with status := RequirementStatusReasonNotPresent })) ∨
        (∃ sa, env.getServiceAccount csvNs perm.serviceAccountName = some sa ∧
          checkPerm env csvNs nsArg acc perm =
            ((perm.rules.foldl (checkRule env sa nsArg) (acc.1, st₀)).1,
              setInsert acc.2 perm.serviceAccountName
                (perm.rules.foldl (checkRule env sa nsArg) (acc.1, st₀)).2))) := by
  cases hlook : setLookup acc.2 perm.serviceAccountName with
  | none =>
    refine ⟨newSAStatus perm.serviceAccountName, Or.inr ⟨rfl, rfl⟩, ?_⟩
    cases hsa : env.getServiceAccount csvNs perm.serviceAccountName with
    | none => exact Or.inl ⟨rfl, by simp only [checkPerm, hlook, hsa]⟩
    | some sa => exact Or.inr ⟨sa, rfl, by simp only [checkPerm, hlook, hsa]⟩
  | some stored =>
    refine ⟨stored, Or.inl rfl, ?_⟩
    cases hsa : env.getServiceAccount csvNs perm.serviceAccountName with
    | none => exact Or.inl ⟨rfl, by simp only [checkPerm, hlook, hsa]⟩
    | some sa => exact Or.inr ⟨sa, rfl, by simp only [checkPerm, hlook, hsa]⟩

/-- One grant step preserves the map invariant and never raises the rank
of any identity's recorded status. -/
theorem checkPerm_good_mono (env : OperatorEnv) (csvNs nsArg : String)
    (acc : Bool × StatusesSet) (perm : StrategyDeploymentPermissions)
    (hg : GoodSet env csvNs acc.2) :
    GoodSet env csvNs (checkPerm env csvNs nsArg acc perm).2 ∧
    ∀ sa, statusRank (statusOf (checkPerm env csvNs nsArg acc perm).2 sa) ≤
      statusRank (statusOf acc.2 sa) := by
  obtain ⟨st₀, hst₀, hbranch⟩ := checkPerm_shape env csvNs nsArg acc perm
  have hkind₀ : st₀.kind = "ServiceAccount" := by
    rcases hst₀ with h | ⟨_, h⟩
    · exact (hg _ _ h).1
    · rw [h]
      rfl
  rcases hbranch with ⟨hsa, hres⟩ | ⟨sa, hsa, hres⟩
  · rw [hres]
    constructor
    · intro k st hk
      rw [setLookup_setInsert] at hk
      by_cases hknm : perm.serviceAccountName = k
      · rw [if_pos hknm] at hk
        obtain rfl : { st₀ with status := RequirementStatusReasonNotPresent } = st :=
          Option.some.inj hk
        refine ⟨hkind₀, Or.inr (Or.inr rfl), fun _ => ?_⟩
        rw [← hknm]
        exact hsa
      · rw [if_neg hknm] at hk
        exact hg k st hk
    · intro sa'
      by_cases hknm : perm.serviceAccountName = sa'
      · have hafter : statusOf (setInsert acc.2 perm.serviceAccountName
            { st₀ with status := RequirementStatusReasonNotPresent }) sa' =
            RequirementStatusReasonNotPresent :=
          statusOf_some _ _ _ (by rw [setLookup_setInsert, if_pos hknm])
        rw [hafter, statusRank_notPresent]
        exact Nat.zero_le _
      · have hsame : statusOf (setInsert acc.2 perm.serviceAccountName
            { st₀ with status := RequirementStatusReasonNotPresent }) sa' =
            statusOf acc.2 sa' := by
          unfold statusOf
          rw [setLookup_setInsert, if_neg hknm]
        rw [hsame]
  · obtain ⟨hkind, hstat, -, -, -⟩ :=
      checkRule_foldl_spec env sa nsArg perm.rules acc.1 st₀
    have hst₀stat : st₀.status = RequirementStatusReasonPresent ∨
        st₀.status = RequirementStatusReasonPresentNotSatisfied := by
      rcases hst₀ with h | ⟨-, h⟩
      · obtain ⟨-, h3, hnp⟩ := hg _ _ h
        rcases h3 with h3 | h3 | h3
        · exact Or.inl h3
        · exact Or.inr h3
        · rw [hnp h3] at hsa
          exact absurd hsa (by simp)
      · rw [h]
        exact Or.inl rfl
    have hrstat : (perm.rules.foldl (checkRule env sa nsArg) (acc.1, st₀)).2.status =
        RequirementStatusReasonPresent ∨
        (perm.rules.foldl (checkRule env sa nsArg) (acc.1, st₀)).2.status =
        RequirementStatusReasonPresentNotSatisfied := by
      rcases hstat with h | h
      · rw [h]
        exact hst₀stat
      · exact Or.inr h
    rw [hres]
    constructor
    · intro k st hk
      rw [setLookup_setInsert] at hk
      by_cases hknm : perm.serviceAccountName = k
      · rw [if_pos hknm] at hk
        obtain rfl := Option.some.inj hk
        refine ⟨by rw [hkind]; exact hkind₀, ?_, ?_⟩
        · rcases hrstat with h | h
          · exact Or.inl h
          · exact Or.inr (Or.inl h)
        · intro hnp
          rcases hrstat with h | h <;> rw [hnp] at h <;> exact absurd h (by decide)
      · rw [if_neg hknm] at hk
        exact hg k st hk
    · intro sa'
      by_cases hknm : perm.serviceAccountName = sa'
      · have hafter : statusOf (setInsert acc.2 perm.serviceAccountName
            (perm.rules.foldl (checkRule env sa nsArg) (acc.1, st₀)).2) sa' =
            (perm.rules.foldl (checkRule env sa nsArg) (acc.1, st₀)).2.status :=
          statusOf_some _ _ _ (by rw [setLookup_setInsert, if_pos hknm])
        rw [hafter]
        rcases hst₀ with h | ⟨h, -⟩
        · rw [← hknm, statusOf_some _ _ _ h]
          rcases hst₀stat with h₀ | h₀
          · rw [h₀, statusRank_present]
            exact statusRank_le_two _
          · rcases hstat with hs | hs
            · rw [hs, h₀]
            · rw [hs, h₀]
        · rw [← hknm, statusOf_none _ _ h, statusRank_present]
          exact statusRank_le_two _
      · have hsame : statusOf (setInsert acc.2 perm.serviceAccountName
            (perm.rules.foldl (checkRule env sa nsArg) (acc.1, st₀)).2) sa' =
            statusOf acc.2 sa' := by
          unfold statusOf
          rw [setLookup_setInsert, if_neg hknm]
        rw [hsame]

/-- One grant step preserves `PermInv`. -/
theorem checkPerm_permInv (env : OperatorEnv) (csvNs nsArg : String)
    (acc : Bool × StatusesSet) (perm : StrategyDeploymentPermissions)
    (hinv : PermInv env csvNs acc) :
    PermInv env csvNs (checkPerm env csvNs nsArg acc perm) := by
  obtain ⟨hg, htrueInv, hfalseInv⟩ := hinv
  have hgood := (checkPerm_good_mono env csvNs nsArg acc perm hg).1
  obtain ⟨st₀, hst₀, hbranch⟩ := checkPerm_shape env csvNs nsArg acc perm
  have hst₀good : acc.1 = true → GoodStatus st₀ := by
    intro ha
    rcases hst₀ with h | ⟨-, h⟩
    · exact htrueInv ha _ (setLookup_mem _ _ _ h)
    · rw [h]
      exact ⟨rfl, fun d hd => absurd hd (by simp [newSAStatus])⟩
  refine ⟨hgood, ?_, ?_⟩
  · intro htrue pr hpr
    rcases hbranch with ⟨hsa, hres⟩ | ⟨sa, hsa, hres⟩
    · rw [hres] at htrue
      exact absurd htrue (by simp)
    · rw [hres] at htrue hpr
      obtain ⟨-, -, -, hrule_true, -⟩ :=
        checkRule_foldl_spec env sa nsArg perm.rules acc.1 st₀
      obtain ⟨hb, hs, hd⟩ := hrule_true htrue
      rcases mem_setInsert _ _ _ pr hpr with h | h
      · rw [h]
        refine ⟨by rw [hs]; exact (hst₀good hb).1, fun d hd' => ?_⟩
        rcases hd d hd' with hmem | hsat
        · exact (hst₀good hb).2 d hmem
        · exact hsat
      · exact htrueInv hb pr h
  · intro hfalse
    rcases hbranch with ⟨hsa, hres⟩ | ⟨sa, hsa, hres⟩
    · rw [hres]
      refine ⟨perm.serviceAccountName,
        { st₀ with status := RequirementStatusReasonNotPresent },
        by rw [setLookup_setInsert, if_pos rfl], Or.inl ?_⟩
      intro h
      have h' : RequirementStatusReasonNotPresent = RequirementStatusReasonPresent := h
      exact absurd h' (by decide)
    · rw [hres] at hfalse ⊢
      obtain ⟨-, hstat, ⟨tail, hdeps⟩, -, hrule_false⟩ :=
        checkRule_foldl_spec env sa nsArg perm.rules acc.1 st₀
      rcases hrule_false hfalse with hb | hpns
      · obtain ⟨k, st, hk, hbad⟩ := hfalseInv hb
        by_cases hknm : perm.serviceAccountName = k
        · rcases hst₀ with h | ⟨h, -⟩
          · rw [hknm] at h
            obtain rfl : st₀ = st := Option.some.inj (h.symm.trans hk)
            refine ⟨k, (perm.rules.foldl (checkRule env sa nsArg) (acc.1, st₀)).2,
              by rw [setLookup_setInsert, if_pos hknm], ?_⟩
            rcases hbad with hbs | ⟨d, hd, hds⟩
            · left
              rcases hstat with h' | h'
              · rw [h']
                exact hbs
              · rw [h']
                decide
            · right
              exact ⟨d, by rw [hdeps]; exact List.mem_append.mpr (Or.inl hd), hds⟩
          · rw [hknm] at h
            rw [h] at hk
            exact absurd hk (by simp)
        · exact ⟨k, st, by rw [setLookup_setInsert, if_neg hknm]; exact hk, hbad⟩
      · refine ⟨perm.serviceAccountName,
          (perm.rules.foldl (checkRule env sa nsArg) (acc.1, st₀)).2,
          by rw [setLookup_setInsert, if_pos rfl], Or.inl ?_⟩
        rw [hpns]
        decide

/-- The whole grant-list loop preserves `PermInv`. -/
theorem checkPermissions_permInv (env : OperatorEnv) (csvNs nsArg : String)
    (perms : List StrategyDeploymentPermissions) (acc : Bool × StatusesSet)
    (hinv : PermInv env csvNs acc) :
    PermInv env csvNs (checkPermissions env csvNs nsArg acc perms) := by
  induction perms generalizing acc with
  | nil => exact hinv
  | cons p ps ih => exact ih _ (checkPerm_permInv env csvNs nsArg acc p hinv)

theorem permInv_start (env : OperatorEnv) (csvNs : String) :
    PermInv env csvNs (true, []) := by
  unfold PermInv GoodSet
  refine ⟨?_, ?_, ?_⟩
  · intro k st h
    exact absurd h (by simp [setLookup])
  · intro _ pr hpr
    exact absurd hpr (List.not_mem_nil pr)
  · intro h
    exact absurd h (by simp)

theorem requirementStatus_fst (env : OperatorEnv) (csv : ClusterServiceVersion) :
    (requirementStatus env csv).1 =
      ((csv.crdDescriptions.all (fun r => (crdRequirement env r).1) &&
        csv.apiServiceDescriptions.all (fun r => (apiServiceRequirement env r).1)) &&
      (permissionStatus env csv).1) := by
  rw [requirementStatus_eq]

theorem requirementStatus_snd (env : OperatorEnv) (csv : ClusterServiceVersion) :
    (requirementStatus env csv).2 =
      csv.crdDescriptions.map (fun r => (crdRequirement env r).2) ++
        csv.apiServiceDescriptions.map (fun r => (apiServiceRequirement env r).2) ++
        (permissionStatus env csv).2 := by
  rw [requirementStatus_eq]

theorem permissionStatus_fst (env : OperatorEnv) (csv : ClusterServiceVersion)
    (sdd : StrategyDetailsDeployment)
    (hdec : env.unmarshalStrategy csv.installStrategy = some (Strategy.deployment sdd)) :
    (permissionStatus env csv).1 =
      (checkPermissions env csv.ns NamespaceAll
        (checkPermissions env csv.ns csv.ns (true, []) sdd.permissions)
        sdd.clusterPermissions).1 := by
  unfold permissionStatus
  rw [hdec]

theorem permissionStatus_snd (env : OperatorEnv) (csv : ClusterServiceVersion)
    (sdd : StrategyDetailsDeployment)
    (hdec : env.unmarshalStrategy csv.installStrategy = some (Strategy.deployment sdd)) :
    (permissionStatus env csv).2 =
      List.replicate (checkPermissions env csv.ns NamespaceAll
          (checkPermissions env csv.ns csv.ns (true, []) sdd.permissions)
          sdd.clusterPermissions).2.length RequirementStatus.zero ++
        (checkPermissions env csv.ns NamespaceAll
          (checkPermissions env csv.ns csv.ns (true, []) sdd.permissions)
          sdd.clusterPermissions).2.map Prod.snd := by
  unfold permissionStatus
  rw [hdec]

/-- When `met` came out true, the strategy necessarily decoded to the
deployment variant. -/
theorem permissionStatus_fst_decode (env : OperatorEnv) (csv : ClusterServiceVersion)
    (h : (permissionStatus env csv).1 = true) :
    ∃ d, env.unmarshalStrategy csv.installStrategy = some (Strategy.deployment d) := by
  unfold permissionStatus at h
  cases hu : env.unmarshalStrategy csv.installStrategy with
  | none =>
    rw [hu] at h
    exact absurd h (by simp)
  | some s =>
    cases s with
    | deployment d => exact ⟨d, rfl⟩
    | other n =>
      rw [hu] at h
      exact absurd h (by simp)

/-- The permission phase's `met` is true exactly when every status it
returns is Present with satisfied dependents or one of the zero-valued
placeholder entries the `make`/`append` collection step produces. -/
theorem permissionStatus_met_iff (env : OperatorEnv) (csv : ClusterServiceVersion)
    (sdd : StrategyDetailsDeployment)
    (hdec : env.unmarshalStrategy csv.installStrategy = some (Strategy.deployment sdd)) :
    ((permissionStatus env csv).1 = true ↔
      ∀ s ∈ (permissionStatus env csv).2,
        (s.status = RequirementStatusReasonPresent ∨ s = RequirementStatus.zero) ∧
        ∀ d ∈ s.dependents, d.status = DependentStatusReasonSatisfied) := by
  have hinv : PermInv env csv.ns
      (checkPermissions env csv.ns NamespaceAll
        (checkPermissions env csv.ns csv.ns (true, []) sdd.permissions)
        sdd.clusterPermissions) :=
    checkPermissions_permInv env csv.ns NamespaceAll sdd.clusterPermissions _
      (checkPermissions_permInv env csv.ns csv.ns sdd.permissions _
        (permInv_start env csv.ns))
  obtain ⟨hgset, htrueInv, hfalseInv⟩ := hinv
  rw [permissionStatus_fst env csv sdd hdec, permissionStatus_snd env csv sdd hdec]
  constructor
  · intro htrue s hs
    rcases List.mem_append.mp hs with h | h
    · have hz := List.eq_of_mem_replicate h
      subst hz
      exact ⟨Or.inr rfl, fun d hd => absurd hd (by simp [RequirementStatus.zero])⟩
    · obtain ⟨pr, hpr, hf⟩ := List.mem_map.mp h
      obtain ⟨hgs1, hgs2⟩ := htrueInv htrue pr hpr
      rw [← hf]
      exact ⟨Or.inl hgs1, hgs2⟩
  · intro hall
    by_contra hne
    have hfalse : (checkPermissions env csv.ns NamespaceAll
        (checkPermissions env csv.ns csv.ns (true, []) sdd.permissions)
        sdd.clusterPermissions).1 = false := by
      cases hb : (checkPermissions env csv.ns NamespaceAll
          (checkPermissions env csv.ns csv.ns (true, []) sdd.permissions)
          sdd.clusterPermissions).1
      · rfl
      · exact absurd hb hne
    obtain ⟨k, st, hk, hbad⟩ := hfalseInv hfalse
    have hmem : st ∈ (checkPermissions env csv.ns NamespaceAll
        (checkPermissions env csv.ns csv.ns (true, []) sdd.permissions)
        sdd.clusterPermissions).2.map Prod.snd := by
      exact List.mem_map_of_mem _ (setLookup_mem _ _ _ hk)
    have hgood := hall st (List.mem_append.mpr (Or.inr hmem))
    have hkind : st.kind = "ServiceAccount" := (hgset _ _ hk).1
    have hnz : st ≠ RequirementStatus.zero := by
      intro h
      rw [h] at hkind
      exact absurd hkind (by decide)
    rcases hbad with h | ⟨d, hd, hds⟩
    · rcases hgood.1 with h' | h'
      · exact h h'
      · exact hnz h'
    · exact hds (hgood.2 d hd)

theorem crdRequirement_spec (env : OperatorEnv) (r : CRDDescription) :
    ((crdRequirement env r).1 = true ↔
      (crdRequirement env r).2.status = RequirementStatusReasonPresent) ∧
    (crdRequirement env r).2.dependents = [] ∧
    (crdRequirement env r).2.group = "apiextensions.k8s.io" := by
  unfold crdRequirement
  cases env.getCRD r.name with
  | none =>
    exact ⟨⟨fun h => absurd (show false = true from h) (by decide),
      fun h => absurd (show RequirementStatusReasonNotPresent =
        RequirementStatusReasonPresent from h) (by decide)⟩, rfl, rfl⟩
  | some crd =>
    exact ⟨⟨fun _ => rfl, fun _ => rfl⟩, rfl, rfl⟩


theorem apiServiceRequirement_spec (env : OperatorEnv) (r : APIServiceDescription) :
    ((apiServiceRequirement env r).1 = true ↔
      (apiServiceRequirement env r).2.status = RequirementStatusReasonPresent) ∧
    (apiServiceRequirement env r).2.dependents = [] ∧
    (apiServiceRequirement env r).2.group = "apiregistration.k8s.io" := by
  cases hreg : env.isGVKRegistered r.name r.version r.kind with
  | false =>
    have hval : apiServiceRequirement env r =
        (false,
          { group := "apiregistration.k8s.io", version := "v1", kind := "APIService",
            name := r.version ++ "." ++ r.name, status := "NotPresent", uuid := "",
            dependents := [] }) := by
      simp [apiServiceRequirement, hreg]
    rw [hval]
    exact ⟨⟨fun h => absurd (show false = true from h) (by decide),
      fun h => absurd (show "NotPresent" = RequirementStatusReasonPresent from h)
        (by decide)⟩, rfl, rfl⟩
  | true =>
    cases hapi : env.getAPIService (r.version ++ "." ++ r.name) with
    | none =>
      have hval : apiServiceRequirement env r =
          (false,
            { group := "apiregistration.k8s.io", version := "v1", kind := "APIService",
              name := r.version ++ "." ++ r.name, status := "NotPresent", uuid := "",
              dependents := [] }) := by
        simp [apiServiceRequirement, hreg, hapi]
      rw [hval]
      exact ⟨⟨fun h => absurd (show false = true from h) (by decide),
        fun h => absurd (show "NotPresent" = RequirementStatusReasonPresent from h)
          (by decide)⟩, rfl, rfl⟩
    | some apiService =>
      cases hav : env.isAPIServiceAvailable apiService with
      | false =>
        have hval : apiServiceRequirement env r =
            (false,
              { group := "apiregistration.k8s.io", version := "v1", kind := "APIService",
                name := r.version ++ "." ++ r.name, status := "NotPresent", uuid := "",
                dependents := [] }) := by
          simp [apiServiceRequirement, hreg, hapi, hav]
        rw [hval]
        exact ⟨⟨fun h => absurd (show false = true from h) (by decide),
          fun h => absurd (show "NotPresent" = RequirementStatusReasonPresent from h)
            (by decide)⟩, rfl, rfl⟩
      | true =>
        have hval : apiServiceRequirement env r =
            (true,
              { group := "apiregistration.k8s.io", version := "v1", kind := "APIService",
                name := r.version ++ "." ++ r.name, status := "Present",
                uuid := apiService.uid, dependents := [] }) := by
          simp [apiServiceRequirement, hreg, hapi, hav]
        rw [hval]
        exact ⟨⟨fun _ => rfl, fun _ => rfl⟩, rfl, rfl⟩

/- ### Claim theorems -/

/-- C1 (counterexample): the claimed equivalence — met is true iff every
returned RequirementStatus is Present and every nested DependentStatus is
Satisfied — fails on the code: for a workload with no declared requirements
whose install strategy does not unmarshal, the resolver returns met = false
with an empty status sequence, so the right-hand side holds vacuously while
met is false. -/
theorem c1_counterexample :
    ¬ ((requirementStatus envA csvA).1 = true ↔
        ∀ s ∈ (requirementStatus envA csvA).2,
          s.status = RequirementStatusReasonPresent ∧
          ∀ d ∈ s.dependents, d.status = DependentStatusReasonSatisfied) := by
  decide

/-- C1 (amended): met is true iff the install strategy unmarshals to the
supported deployment variant AND every returned RequirementStatus is either
Present (with every nested DependentStatus Satisfied) or one of the
zero-valued placeholder entries that the `make`/`append` slip in the
collection loop prepends (their status is the empty string and they carry
no dependents). -/
theorem c1_met_iff_amended (env : OperatorEnv) (csv : ClusterServiceVersion) :
    ((requirementStatus env csv).1 = true ↔
      ((∃ d, env.unmarshalStrategy csv.installStrategy = some (Strategy.deployment d)) ∧
        ∀ s ∈ (requirementStatus env csv).2,
          (s.status = RequirementStatusReasonPresent ∨ s = RequirementStatus.zero) ∧
          ∀ d ∈ s.dependents, d.status = DependentStatusReasonSatisfied)) := by
  rw [requirementStatus_fst, requirementStatus_snd]
  constructor
  · intro h
    rw [Bool.and_eq_true, Bool.and_eq_true] at h
    obtain ⟨⟨h1, h2⟩, h3⟩ := h
    obtain ⟨sdd, hdec⟩ := permissionStatus_fst_decode env csv h3
    refine ⟨⟨sdd, hdec⟩, ?_⟩
    intro s hs
    rcases List.mem_append.mp hs with hs | hs
    · rcases List.mem_append.mp hs with hs | hs
      · obtain ⟨r, hr, rfl⟩ := List.mem_map.mp hs
        obtain ⟨hiff, hdeps, -⟩ := crdRequirement_spec env r
        simp only [List.all_eq_true] at h1
        refine ⟨Or.inl (hiff.mp (h1 r hr)), ?_⟩
        rw [hdeps]
        intro d hd
        exact absurd hd (List.not_mem_nil d)
      · obtain ⟨r, hr, rfl⟩ := List.mem_map.mp hs
        obtain ⟨hiff, hdeps, -⟩ := apiServiceRequirement_spec env r
        simp only [List.all_eq_true] at h2
        refine ⟨Or.inl (hiff.mp (h2 r hr)), ?_⟩
        rw [hdeps]
        intro d hd
        exact absurd hd (List.not_mem_nil d)
    · exact ((permissionStatus_met_iff env csv sdd hdec).mp h3) s hs
  · rintro ⟨⟨sdd, hdec⟩, hall⟩
    rw [Bool.and_eq_true, Bool.and_eq_true]
    refine ⟨⟨?_, ?_⟩, ?_⟩
    · simp only [List.all_eq_true]
      intro r hr
      obtain ⟨hiff, -, hgroup⟩ := crdRequirement_spec env r
      have hmem : (crdRequirement env r).2 ∈
          csv.crdDescriptions.map (fun x => (crdRequirement env x).2) ++
            csv.apiServiceDescriptions.map (fun x => (apiServiceRequirement env x).2) ++
            (permissionStatus env csv).2 :=
        List.mem_append.mpr (Or.inl (List.mem_append.mpr
          (Or.inl (List.mem_map_of_mem _ hr))))
      have hgood := hall _ hmem
      rcases hgood.1 with h | h
      · exact hiff.mpr h
      · rw [h] at hgroup
        exact absurd hgroup (by decide)
    · simp only [List.all_eq_true]
      intro r hr
      obtain ⟨hiff, -, hgroup⟩ := apiServiceRequirement_spec env r
      have hmem : (apiServiceRequirement env r).2 ∈
          csv.crdDescriptions.map (fun x => (crdRequirement env x).2) ++
            csv.apiServiceDescriptions.map (fun x => (apiServiceRequirement env x).2) ++
            (permissionStatus env csv).2 :=
        List.mem_append.mpr (Or.inl (List.mem_append.mpr
          (Or.inr (List.mem_map_of_mem _ hr))))
      have hgood := hall _ hmem
      rcases hgood.1 with h | h
      · exact hiff.mpr h
      · rw [h] at hgroup
        exact absurd hgroup (by decide)
    · refine (permissionStatus_met_iff env csv sdd hdec).mpr ?_
      intro s hs
      exact hall s (List.mem_append.mpr (Or.inr hs))

/-- C2 (code-bug exhibit): for a deployment strategy naming the single
identity sa1 in both the namespaced and the cluster-wide grant lists, the
permission phase does produce exactly one merged entry for sa1 — with the
dependents of both lists concatenated in encounter order — but the returned
sequence additionally contains a zero-valued RequirementStatus in front of
it, because the collection loop appends the map's values to a slice already
pre-sized with `make([]v1alpha1.RequirementStatus, len(statusesSet))`. -/
theorem c2_padding_exhibit :
    permissionStatus env2 csv2 = (true, [RequirementStatus.zero, mergedSa1Status]) ∧
    mergedSa1Status.name = "sa1" ∧
    mergedSa1Status.dependents = [satDependent rule1, satDependent rule2] := by
  exact ⟨rfl, rfl, rfl⟩

/-- C3: a workload that declares no CRD requirements, no APIService
requirements, and whose install strategy decodes to a deployment strategy
with empty grant lists resolves to met = true with an empty status
sequence. -/
theorem c3_zero_requirements (env : OperatorEnv) (csv : ClusterServiceVersion)
    (h1 : csv.crdDescriptions = []) (h2 : csv.apiServiceDescriptions = [])
    (h3 : env.unmarshalStrategy csv.installStrategy =
      some (Strategy.deployment ⟨[], []⟩)) :
    requirementStatus env csv = (true, []) := by
  have hfst := requirementStatus_fst env csv
  have hsnd := requirementStatus_snd env csv
  have hperm : permissionStatus env csv = (true, []) := by
    unfold permissionStatus
    rw [h3]
    rfl
  rw [h1, h2, hperm] at hfst hsnd
  simp at hfst hsnd
  exact Prod.ext hfst hsnd

theorem c3_zero_requirements_witness : requirementStatus env3 csv3 = (true, []) :=
  c3_zero_requirements env3 csv3 rfl rfl rfl

/-- C4 (code-bug exhibit): with one CRD requirement that is present and one
identity grant whose service account exists, the resolver returns the CRD
status first and the identity status last, but a zero-valued placeholder
entry — which is neither a type-definition, a service-extension, nor an
identity status (its kind is empty) — sits between them, produced by the
`make`/`append` slip in the permission-status collection loop. -/
theorem c4_order_exhibit :
    requirementStatus env4 csv4 = (true, [crdStatus4, RequirementStatus.zero, sa1Status4]) ∧
    crdStatus4.kind = "CustomResourceDefinition" ∧
    sa1Status4.kind = "ServiceAccount" ∧
    RequirementStatus.zero.kind ≠ "CustomResourceDefinition" ∧
    RequirementStatus.zero.kind ≠ "APIService" ∧
    RequirementStatus.zero.kind ≠ "ServiceAccount" := by
  exact ⟨rfl, rfl, rfl, by decide, by decide, by decide⟩

/-- C5: when the install strategy fails to unmarshal, or unmarshals to
anything other than the deployment-shaped variant, the permission check
returns met = false with no statuses; the function has no error result at
all, so the resolver call cannot fail. -/
theorem c5_undecodable_strategy (env : OperatorEnv) (csv : ClusterServiceVersion)
    (h : ∀ d, env.unmarshalStrategy csv.installStrategy ≠
      some (Strategy.deployment d)) :
    permissionStatus env csv = (false, []) := by
  unfold permissionStatus
  cases hu : env.unmarshalStrategy csv.installStrategy with
  | none => rfl
  | some s =>
    cases s with
    | deployment d => exact absurd hu (h d)
    | other n => rfl

theorem c5_undecodable_strategy_witness : permissionStatus envA csvA = (false, []) :=
  c5_undecodable_strategy envA csvA (fun d hd => nomatch hd)

/-- C6: starting from any reachable map state (every entry a
ServiceAccount status with one of the three legal values, NotPresent only
when its identity lookup fails), processing any further grant list never
raises the recorded status of any identity: the rank order is
Present > PresentNotSatisfied > NotPresent, and an absent entry counts as
the default Present a fresh entry starts from. -/
theorem c6_identity_status_monotone (env : OperatorEnv) (csvNs nsArg : String)
    (perms : List StrategyDeploymentPermissions) (acc : Bool × StatusesSet)
    (hg : GoodSet env csvNs acc.2) :
    GoodSet env csvNs (checkPermissions env csvNs nsArg acc perms).2 ∧
    ∀ sa, statusRank (statusOf (checkPermissions env csvNs nsArg acc perms).2 sa) ≤
      statusRank (statusOf acc.2 sa) := by
  induction perms generalizing acc with
  | nil => exact ⟨hg, fun sa => le_refl _⟩
  | cons p ps ih =>
    obtain ⟨hg1, hmono1⟩ := checkPerm_good_mono env csvNs nsArg acc p hg
    obtain ⟨hg2, hmono2⟩ := ih (checkPerm env csvNs nsArg acc p) hg1
    exact ⟨hg2, fun sa => le_trans (hmono2 sa) (hmono1 sa)⟩

theorem c6_identity_status_monotone_witness :
    statusRank (statusOf (checkPermissions env2 "ns-b" "ns-b" (true, [])
      sdd2.permissions).2 "sa1") ≤ statusRank (statusOf [] "sa1") :=
  (c6_identity_status_monotone env2 "ns-b" "ns-b" sdd2.permissions (true, [])
    (fun k st h => nomatch h)).2 "sa1"

theorem manifestMatches_iff (m : PackageManifest) (nm ns : String) (ls : LabelSelector) :
    manifestMatches m nm ns ls = true ↔
      (ls m.labels = true ∧ (nm = "" ∨ m.name = nm) ∧
        (ns = NamespaceAll ∨ m.ns = ns)) := by
  unfold manifestMatches
  by_cases hnm : nm = "" <;> by_cases hns : ns = NamespaceAll <;>
    simp [hnm, hns, Bool.and_eq_true, and_assoc]

/-- Reduction of `goList` at a non-nil options pointer. -/
theorem goList_some (prov : StorageProvider) (reqNs : String) (o : ListOptions) :
    goList prov reqNs (some o) =
      (match nameFor o.fieldSelector with
      | Except.error e => GoResult.fails none e
      | Except.ok name =>
        match prov.list reqNs with
        | Except.error e => GoResult.fails (some []) e
        | Except.ok items =>
          GoResult.ok (items.filter
            (fun m => manifestMatches m name reqNs (optLabelSelector o)))) := rfl

/-- Reduction of `goWatch` at a non-nil options pointer. -/
theorem goWatch_some (prov : StorageProvider) (reqNs : String) (o : ListOptions)
    (snapshot : List PackageManifest) (feed : List FeedChange) :
    goWatch prov reqNs (some o) snapshot feed =
      (match nameFor o.fieldSelector with
      | Except.error e => GoResult.fails none e
      | Except.ok name =>
        GoResult.ok (watcherRun
          { ns := reqNs, name := name, resourceVersion := o.resourceVersion,
            labelSelector := optLabelSelector o } snapshot feed)) := rfl

/-- C7: List retains exactly the provider's records that pass the label
selector, the (possibly empty) name filter, and whose own namespace equals
the requested one — a requested namespace of NamespaceAll matching every
record — and a provider failure yields an empty collection together with
the provider's error. -/
theorem c7_list_filters (prov : StorageProvider) (reqNs : String) (opts : ListOptions)
    (nm : String) (hname : nameFor opts.fieldSelector = Except.ok nm) :
    (∀ e, prov.list reqNs = Except.error e →
      goList prov reqNs (some opts) = GoResult.fails (some []) e) ∧
    (∀ items, prov.list reqNs = Except.ok items →
      goList prov reqNs (some opts) =
        GoResult.ok (items.filter
          (fun m => manifestMatches m nm reqNs (optLabelSelector opts))) ∧
      ∀ m, (m ∈ items.filter
          (fun m => manifestMatches m nm reqNs (optLabelSelector opts)) ↔
        (m ∈ items ∧ optLabelSelector opts m.labels = true ∧
          (nm = "" ∨ m.name = nm) ∧ (reqNs = NamespaceAll ∨ m.ns = reqNs)))) := by
  constructor
  · intro e he
    rw [goList_some, hname, he]
  · intro items hi
    constructor
    · rw [goList_some, hname, hi]
    · intro m
      rw [List.mem_filter, manifestMatches_iff]

theorem c7_list_filters_witness :
    goList prov7 "ns-1" (some opts7) =
      GoResult.ok ([pm1, pm2].filter
        (fun m => manifestMatches m "" "ns-1" (optLabelSelector opts7))) :=
  ((c7_list_filters prov7 "ns-1" opts7 "" rfl).2 [pm1, pm2] rfl).1

/-- C8 (counterexample): a compound field selector conjoining an exact
match on metadata.name with a filter on another field is non-empty and is
not (only) an exact-match filter on the name field — it contains a filter
on status.catalogSource — yet both List and Watch accept it instead of
failing with an unsupported-filter error: the extra field is silently
ignored. -/
theorem c8_counterexample :
    opts8.fieldSelector.getD [] ≠ [] ∧
    (∃ t ∈ opts8.fieldSelector.getD [], FieldTerm.field t ≠ "metadata.name") ∧
    goList prov7 "ns-1" (some opts8) = GoResult.ok [pm1] ∧
    goWatch prov7 "ns-1" (some opts8) [pm1, pm2] [] =
      GoResult.ok [WatchEvent.added pm1] := by
  refine ⟨by decide, ⟨FieldTerm.hasTerm "status.catalogSource" "x", by decide, by decide⟩,
    rfl, rfl⟩

/-- C8 (amended): List and Watch fail with the unsupported-filter error —
naming the first requirement's field — exactly when the field selector is
non-empty and contains no exact-match requirement on metadata.name; a
selector containing such an exact match (even alongside other
requirements, which are ignored) or an empty/absent selector never
produces this error. -/
theorem c8_unsupported_field_amended (prov : StorageProvider) (reqNs : String)
    (o : ListOptions) (snapshot : List PackageManifest) (feed : List FeedChange) :
    ((requiresExactMatch (o.fieldSelector.getD []) "metadata.name" = none ∧
        o.fieldSelector.getD [] ≠ []) →
      (goList prov reqNs (some o) = GoResult.fails none
          ("field label not supported: " ++
            ((o.fieldSelector.getD []).headD default).field) ∧
        goWatch prov reqNs (some o) snapshot feed = GoResult.fails none
          ("field label not supported: " ++
            ((o.fieldSelector.getD []).headD default).field))) ∧
    ((requiresExactMatch (o.fieldSelector.getD []) "metadata.name" ≠ none ∨
        o.fieldSelector.getD [] = []) →
      ((∀ msg, goList prov reqNs (some o) ≠ GoResult.fails none msg) ∧
        (∀ msg, goWatch prov reqNs (some o) snapshot feed ≠
          GoResult.fails none msg))) := by
  constructor
  · rintro ⟨hnone, hne⟩
    have hempty : fieldSelectorEmpty (o.fieldSelector.getD []) = false := by
      cases h : o.fieldSelector.getD [] with
      | nil => exact absurd h hne
      | cons a l => rfl
    have hnf : nameFor o.fieldSelector = Except.error
        ("field label not supported: " ++
          ((o.fieldSelector.getD []).headD default).field) := by
      unfold nameFor
      rw [hnone, hempty]
      rfl
    exact ⟨by rw [goList_some, hnf], by rw [goWatch_some, hnf]⟩
  · intro hcase
    have hok : ∃ v, nameFor o.fieldSelector = Except.ok v := by
      rcases hcase with h | h
      · cases hreq : requiresExactMatch (o.fieldSelector.getD []) "metadata.name" with
        | none => exact absurd hreq h
        | some v =>
          refine ⟨v, ?_⟩
          unfold nameFor
          rw [hreq]
      · refine ⟨"", ?_⟩
        unfold nameFor
        rw [h]
        rfl
    obtain ⟨v, hv⟩ := hok
    constructor
    · intro msg
      rw [goList_some, hv]
      cases prov.list reqNs with
      | error e => simp
      | ok items => simp
    · intro msg
      rw [goWatch_some, hv]
      simp

theorem c8_unsupported_field_amended_witness :
    goList prov7 "ns-1" (some opts8b) =
      GoResult.fails none "field label not supported: status.catalogSource" := by
  have h := (c8_unsupported_field_amended prov7 "ns-1" opts8b [] []).1 ⟨rfl, by decide⟩
  exact h.1

/-- C9 (spec-modelled watcher): a Watch whose field selector is accepted
creates a watcher with the captured filter, and the watcher's event trace
is exactly one synthetic Added event per snapshot record matching the
filter, followed by the filtered live-feed events; with an empty feed the
trace is the snapshot replay alone, so the replay always precedes any
feed-derived event. -/
theorem c9_watch_replay (prov : StorageProvider) (reqNs : String) (o : ListOptions)
    (nm : String) (snapshot : List PackageManifest) (feed : List FeedChange)
    (hname : nameFor o.fieldSelector = Except.ok nm) :
    goWatch prov reqNs (some o) snapshot feed =
      GoResult.ok (((snapshot.filter (fun m => manifestMatches m nm reqNs
          (optLabelSelector o))).map WatchEvent.added) ++
        feed.filterMap (filterChange
          { ns := reqNs, name := nm, resourceVersion := o.resourceVersion,
            labelSelector := optLabelSelector o })) ∧
    (feed = [] →
      goWatch prov reqNs (some o) snapshot feed =
        GoResult.ok ((snapshot.filter (fun m => manifestMatches m nm reqNs
          (optLabelSelector o))).map WatchEvent.added)) := by
  constructor
  · rw [goWatch_some, hname]
    rfl
  · intro hfeed
    subst hfeed
    rw [goWatch_some, hname]
    simp [watcherRun, watcherReplay]

theorem c9_watch_replay_witness :
    goWatch prov7 "ns-1" (some opts7) [pm1, pm2] [] =
      GoResult.ok [WatchEvent.added pm1] := by
  have h := (c9_watch_replay prov7 "ns-1" opts7 "" [pm1, pm2] [] rfl).2 rfl
  rw [h]
  rfl

/-- C10: a nil options pointer makes both List and Watch panic — they
dereference options for the field selector (and Watch for the
resource-version cursor) without a nil check, although the label-selector
read is nil-guarded — while with any non-nil options neither call
panics. -/
theorem c10_nil_options_panics (prov : StorageProvider) (reqNs : String)
    (snapshot : List PackageManifest) (feed : List FeedChange) :
    goList prov reqNs none = GoResult.panics ∧
    goWatch prov reqNs none snapshot feed = GoResult.panics ∧
    (∀ o, goList prov reqNs (some o) ≠ GoResult.panics) ∧
    (∀ o, goWatch prov reqNs (some o) snapshot feed ≠ GoResult.panics) := by
  refine ⟨rfl, rfl, ?_, ?_⟩
  · intro o
    rw [goList_some]
    cases nameFor o.fieldSelector with
    | error e => simp
    | ok nm =>
      cases prov.list reqNs with
      | error e => simp
      | ok items => simp
  · intro o
    rw [goWatch_some]
    cases nameFor o.fieldSelector with
    | error e => simp
    | ok nm => simp
